import Mathlib

/-!
Verification of the rnaseqlib pipeline orchestration engine.

Shallow embedding of `rnaseqlib/Pipeline.py`, `rnaseqlib/clip/clip_utils.py`
and `rnaseqlib/cluster_utils/Mysge.py`.  File systems are modelled as partial
maps from path strings to file contents; BAM files are lists of alignment
records; external tools (samtools, cutadapt, the poly-A trimmer, the read
collapser) are abstract path/content transformers passed as parameters.
-/

namespace Rnaseqlib

/-! ### String utilities

Kernel-computable models of the Python string operations used by the code
(`str.split`, `str.replace`, `str.startswith`, slicing, `os.path.basename`,
`os.path.dirname`, `os.path.join`, `int`).  They operate on the character
lists underlying `String` so that concrete instances evaluate by `decide`.
-/

/-- If `pat` is a prefix of `l`, return the rest of `l` after `pat`. -/
def dropPat? : List Char → List Char → Option (List Char)
  | [], ys => some ys
  | _ :: _, [] => none
  | x :: xs, y :: ys => if x = y then dropPat? xs ys else none

/-- Fuel-indexed splitting of a character list on a separator occurrence,
accumulating the current token (reversed) in `acc`.  With `fuel ≥ length`
and a nonempty separator the fuel is never exhausted. -/
def splitListAux (sep : List Char) : Nat → List Char → List Char → List (List Char)
  | _, acc, [] => [acc.reverse]
  | 0, acc, l => [acc.reverse ++ l]
  | fuel + 1, acc, x :: xs =>
    match dropPat? sep (x :: xs) with
    | some rest => acc.reverse :: splitListAux sep fuel [] rest
    | none => splitListAux sep fuel (x :: acc) xs

/-- Python `s.split(sep)` for a nonempty separator: split on every occurrence,
keeping empty tokens. -/
def strSplit (s sep : String) : List String :=
  (splitListAux sep.data (s.data.length + 1) [] s.data).map String.mk

/-- Fuel-indexed replacement of every (non-overlapping, leftmost) occurrence
of `pat` by `rep`. -/
def replaceListAux (pat rep : List Char) : Nat → List Char → List Char
  | _, [] => []
  | 0, l => l
  | fuel + 1, x :: xs =>
    match dropPat? pat (x :: xs) with
    | some rest => rep ++ replaceListAux pat rep fuel rest
    | none => x :: replaceListAux pat rep fuel xs

/-- Python `s.replace(pat, rep)` for a nonempty pattern. -/
def strReplace (s pat rep : String) : String :=
  if pat.data = [] then s
  else String.mk (replaceListAux pat.data rep.data (s.data.length + 1) s.data)

/-- Python `s.startswith(pat)`. -/
def strStartsWith (s pat : String) : Bool :=
  (dropPat? pat.data s.data).isSome

/-- Python slicing `s[0:-n]`: drop the last `n` characters. -/
def strDropRight (s : String) (n : Nat) : String :=
  String.mk (s.data.take (s.data.length - n))

/-- Accumulator pass of `pyInt?` over the digit characters. -/
def parseNatAux : Nat → List Char → Option Nat
  | acc, [] => some acc
  | acc, c :: cs =>
    if c.isDigit then parseNatAux (acc * 10 + (c.toNat - 48)) cs else none

/-- Python `int(s)` for an unsigned decimal literal: all characters must be
digits and there must be at least one; otherwise a `ValueError` (`none`). -/
def pyInt? (s : String) : Option Nat :=
  if s.data = [] then none else parseNatAux 0 s.data

/-- Model of `os.path.basename`. -/
def basename (p : String) : String :=
  (strSplit p "/").getLastD p

/-- Right fold gluing path components with `/`. -/
def joinWithSlash : List String → String
  | [] => ""
  | [x] => x
  | x :: xs => x ++ "/" ++ joinWithSlash xs

/-- Model of `os.path.dirname`. -/
def dirname (p : String) : String :=
  joinWithSlash (strSplit p "/").dropLast

/-- Model of `os.path.join` for a nonempty directory and a relative component. -/
def pathJoin (d f : String) : String := d ++ "/" ++ f

/-! ### Alignment records and file systems -/

/-- One alignment record of a BAM container: query name, reference name,
position and the list of (tag, value) pairs (pysam `read.tags`). -/
structure AlignedRead where
  qname : String
  ref : String
  pos : Nat
  tags : List (String × Int)
deriving DecidableEq

/-- A file system: partial map from path to file contents. -/
def FS (α : Type) : Type := String → Option α

/-- Writing (or overwriting) one file. -/
def fsWrite {α : Type} (fs : FS α) (p : String) (c : α) : FS α :=
  fun q => if q = p then some c else fs q

/-- Result of one file-producing pipeline stage: the file system after the
stage, the path the stage returns, whether the underlying (expensive)
operation was executed, and whether a warning was logged. -/
structure StageOut (α : Type) where
  fs : FS α
  path : String
  ran : Bool
  warned : Bool

/-! ### `Pipeline.get_unique_reads` (Pipeline.py:829-874) -/

/-- Output path: `os.path.join(processed_bam_dir, bam_basename[0:-4] + ".unique.bam")`. -/
def uniqueBamPath (processedBamDir bamPath : String) : String :=
  pathJoin processedBamDir (strDropRight (basename bamPath) 4 ++ ".unique.bam")

/-- The retention test of the source: `("NH", 1) in read.tags`. -/
def isUniqueRead (r : AlignedRead) : Bool :=
  decide ((("NH" : String), (1 : Int)) ∈ r.tags)

/-- Model of `Pipeline.get_unique_reads`: exit fatally if the input BAM is missing;
skip the pass if the output exists; otherwise stream the records, keeping
those whose tags contain `("NH", 1)`, and warn when none are kept. -/
def get_unique_reads (fs : FS (List AlignedRead)) (bamPath processedBamDir : String) :
    Except String (StageOut (List AlignedRead)) :=
  match fs bamPath with
  | none => Except.error "Error: Cannot find BAM file"
  | some reads =>
    let outPath := uniqueBamPath processedBamDir bamPath
    if (fs outPath).isSome then
      Except.ok ⟨fs, outPath, false, false⟩
    else
      let uniq := reads.filter isUniqueRead
      Except.ok ⟨fsWrite fs outPath uniq, outPath, true, uniq.isEmpty⟩

/-! ### `Pipeline.get_ribosub_bam_reads` (Pipeline.py:776-826) -/

/-- Output path: `os.path.join(processed_bam_dir, bam_basename[0:-4] + ".ribosub.bam")`. -/
def ribosubBamPath (processedBamDir bamPath : String) : String :=
  pathJoin processedBamDir (strDropRight (basename bamPath) 4 ++ ".ribosub.bam")

/-- Pass 1 of the source: the query names of all reads fetched from the
excluded reference (`mapped_reads.fetch(reference=chr_ribo)`). -/
def riboReadIds (reads : List AlignedRead) (chrRibo : String) : List String :=
  (reads.filter (fun r => r.ref == chrRibo)).map AlignedRead.qname

/-- Pass 2 of the source: keep a read unless its query name appears in the
excluded set. -/
def ribosubReads (reads : List AlignedRead) (chrRibo : String) : List AlignedRead :=
  reads.filter (fun r => !(riboReadIds reads chrRibo).contains r.qname)

/-- Model of `Pipeline.get_ribosub_bam_reads`: the input BAM is opened (pysam
`Samfile`) before the output-exists check, so a missing input is an error
even when the output is already present; when the output exists the two
passes are skipped and the path returned unchanged; otherwise both passes
run and a warning is logged when the excluded set is empty. -/
def get_ribosub_bam_reads (fs : FS (List AlignedRead))
    (bamPath processedBamDir chrRibo : String) :
    Except String (StageOut (List AlignedRead)) :=
  match fs bamPath with
  | none => Except.error "could not open BAM file"
  | some reads =>
    let outPath := ribosubBamPath processedBamDir bamPath
    if (fs outPath).isSome then
      Except.ok ⟨fs, outPath, false, false⟩
    else
      Except.ok ⟨fsWrite fs outPath (ribosubReads reads chrRibo), outPath, true,
                 (riboReadIds reads chrRibo).isEmpty⟩

/-! ### `Pipeline.rmdups_bam` (Pipeline.py:684-711) -/

/-- Output path: basename with `.bam` then `.sorted.` removed, plus
`.rmdups.bam`, inside `output_dir`. -/
def rmdupsBamPath (outputDir bamPath : String) : String :=
  pathJoin outputDir
    (strReplace (strReplace (basename bamPath) ".bam" "") ".sorted." "" ++ ".rmdups.bam")

/-- Model of `Pipeline.rmdups_bam`: skip if the output exists, else invoke
`samtools rmdup` (abstracted as `samtoolsRmdup`; the external command
produces the output file only when the input file exists — its failure is
not observed by the caller). -/
def rmdups_bam (samtoolsRmdup : List AlignedRead → List AlignedRead)
    (fs : FS (List AlignedRead)) (bamPath outputDir : String) :
    StageOut (List AlignedRead) :=
  let outPath := rmdupsBamPath outputDir bamPath
  if (fs outPath).isSome then ⟨fs, outPath, false, false⟩
  else
    match fs bamPath with
    | some reads => ⟨fsWrite fs outPath (samtoolsRmdup reads), outPath, true, false⟩
    | none => ⟨fs, outPath, true, false⟩

/-! ### `Pipeline.index_bam` and `Pipeline.sort_and_index_bam` (Pipeline.py:741-773) -/

/-- Model of `Pipeline.index_bam`: run `samtools index` unless the `.bai` companion
exists.  The index contents are irrelevant to the model; the command
creates the index only when the BAM itself exists.  Second component:
whether the command was executed. -/
def index_bam (fs : FS (List AlignedRead)) (bamPath : String) :
    FS (List AlignedRead) × Bool :=
  if (fs (bamPath ++ ".bai")).isSome then (fs, false)
  else
    match fs bamPath with
    | some _ => (fsWrite fs (bamPath ++ ".bai") [], true)
    | none => (fs, true)

/-- Sorted output path: `dirname + "/" + basename.split(".bam")[0] + ".sorted.bam"`. -/
def sortedBamPath (bamPath : String) : String :=
  pathJoin (dirname bamPath) ((strSplit (basename bamPath) ".bam").headD "" ++ ".sorted")
    ++ ".bam"

/-- Model of `Pipeline.sort_and_index_bam`: run `samtools sort` (abstracted as
`samtoolsSort`) unless the sorted target exists, then always call
`index_bam` on the sorted target.  Returns the new file system, the sorted
path, whether the sort command ran, and whether the index command ran. -/
def sort_and_index_bam (samtoolsSort : List AlignedRead → List AlignedRead)
    (fs : FS (List AlignedRead)) (bamPath : String) :
    FS (List AlignedRead) × String × Bool × Bool :=
  let sortedPath := sortedBamPath bamPath
  let step1 :=
    if (fs sortedPath).isSome then (fs, false)
    else
      match fs bamPath with
      | some reads => (fsWrite fs sortedPath (samtoolsSort reads), true)
      | none => (fs, true)
  let step2 := index_bam step1.1 sortedPath
  (step2.1, sortedPath, step1.2, step2.2)

/-! ### `clip_utils.trim_clip_adaptors` (clip_utils.py:12-57) -/

/-- Output path: `os.path.join(output_dir, trim_fastq_ext(basename) + "_trimmed.fastq.gz")`.
`utils.trim_fastq_ext` lives outside the analysed sources and is passed in
abstractly. -/
def trimmedFastqPath (trimFastqExt : String → String) (outputDir fastqPath : String) :
    String :=
  pathJoin outputDir (trimFastqExt (basename fastqPath) ++ "_trimmed.fastq.gz")

/-- Model of `clip_utils.trim_clip_adaptors`: return immediately when the output
exists (before the adaptors file is even checked); exit fatally when the
adaptors file is missing; otherwise run `cutadapt` (abstracted as
`cutadapt adaptors contents`; the external command produces the output only
when the input fastq exists, and its failure is not observed). -/
def trim_clip_adaptors (trimFastqExt : String → String)
    (cutadapt : String → String → String) (fs : FS String)
    (fastqPath adaptorsPath outputDir : String) :
    Except String (StageOut String) :=
  let outPath := trimmedFastqPath trimFastqExt outputDir fastqPath
  if (fs outPath).isSome then Except.ok ⟨fs, outPath, false, false⟩
  else
    match fs adaptorsPath with
    | none => Except.error "Could not find adaptors file"
    | some adaptors =>
      match fs fastqPath with
      | some contents =>
        Except.ok ⟨fsWrite fs outPath (cutadapt adaptors contents), outPath, true, false⟩
      | none => Except.ok ⟨fs, outPath, true, false⟩

/-! ### `Mysge.waitUntilDone` (Mysge.py:4-11) -/

/-- Fuel-indexed small-step model of the `while True` polling loop of
`Mysge.waitUntilDone`.  `present k` tells whether the k-th `qstat` poll
(0-based) still reports the job; each loop iteration performs exactly one
poll, breaking when the poll reports the job gone.  Returns the total
number of polls performed when the loop exits within `fuel` iterations,
and `none` when it does not. -/
def waitUntilDoneAux (present : Nat → Bool) : Nat → Nat → Option Nat
  | 0, _ => none
  | fuel + 1, k => if present k then waitUntilDoneAux present fuel (k + 1) else some (k + 1)

/-- Model of `Mysge.waitUntilDone`, started at the first poll. -/
def waitUntilDone (present : Nat → Bool) (fuel : Nat) : Option Nat :=
  waitUntilDoneAux present fuel 0

/-! ### `Mysge.launchJob` acknowledgment handling (Mysge.py:85-106) -/

/-- The acknowledgment handling of `Mysge.launchJob`: when the scheduler's
stdout starts with `"Your job "`, the job id is `int(output.split(" ")[2])`
(an unparseable third token raises `ValueError`, also fatal); otherwise an
`Exception` is raised.  Errors model uncaught (fatal) exceptions. -/
def launchJobParseAck (ack : String) : Except String Nat :=
  if strStartsWith ack "Your job " then
    match ((strSplit ack " ").get? 2).bind pyInt? with
    | some jobID => Except.ok jobID
    | none => Except.error "ValueError: invalid literal for int()"
  else
    Except.error ("Failed to launch job: " ++ ack)

/-! ### `Sample` / `SampleRawdata` construction (Pipeline.py:34-111, 440-470) -/

/-- Fields of `SampleRawdata.__init__`: label, original sequence file, a mutable reads
path starting equal to the original, an optional collapsed path (set later
for CLIP samples) and the sample type taken from the pipeline settings
(`None` when no settings are given). -/
structure SampleRawdata where
  label : String
  seq_filename : String
  reads_filename : String
  collapsed_seq_filename : Option String
  sample_type : Option String
deriving DecidableEq

/-- Model of `SampleRawdata.__init__(label, seq_filename, settings_info)` with the
data type already extracted from `settings_info["pipeline"]["data_type"]`. -/
def SampleRawdata.make (label seq_filename : String) (dataType : Option String) :
    SampleRawdata :=
  ⟨label, seq_filename, seq_filename, none, dataType⟩

/-- The `rawdata` argument of `Sample.__init__`: either one `SampleRawdata`
or a Python list of them (paired group). -/
inductive RawdataArg where
  | single : SampleRawdata → RawdataArg
  | group : List SampleRawdata → RawdataArg
deriving DecidableEq

/-- The `Sample` fields settled by `Sample.__init__`. -/
structure Sample where
  label : String
  rawdata : RawdataArg
  paired : Bool
  sample_type : Option String
deriving DecidableEq

/-- Model of `Sample.__init__`: `paired` starts `False` and `sample_type` `None`;
when `rawdata` is a list, `paired` becomes `True` and the type is read off
the first member (`rawdata[0]` raises `IndexError` on an empty list, hence
`none`); otherwise the type is the rawdata's own type. -/
def Sample.make (label : String) (rawdata : RawdataArg) : Option Sample :=
  match rawdata with
  | RawdataArg.group rs =>
    match rs with
    | [] => none
    | r0 :: _ => some ⟨label, rawdata, true, r0.sample_type⟩
  | RawdataArg.single r => some ⟨label, rawdata, false, r.sample_type⟩

/-- The single-end arm of `Pipeline.load_pipeline_samples`: one `Sample` per
`SampleRawdata`, labelled by the rawdata's label. -/
def load_single_end_samples (rds : List SampleRawdata) : List Sample :=
  rds.filterMap (fun rd => Sample.make rd.label (RawdataArg.single rd))

/-! ### `Pipeline.preprocess_reads` (Pipeline.py:478-516) -/

/-- Model of `Pipeline.preprocess_reads` on an unpaired sample (the function reads
`sample.rawdata.seq_filename`, so a paired sample's list rawdata would
raise; modelled as `none`).  The three external trimming/collapsing tools
(`ribo_utils.trim_polyA_ends`, `clip_utils.trim_clip_adaptors`,
`clip_utils.collapse_clip_reads`) are abstracted as path transformers:

* `"riboseq"`: the reads path becomes the poly-A-trimmed output;
* `"clipseq"`: adaptors are trimmed first, the trimmed output is collapsed,
  and the collapsed path becomes both `collapsed_seq_filename` and the
  final reads path;
* any other type: the sample is returned unchanged. -/
def preprocess_reads (trimPolyAEnds trimClipAdaptors collapseClipReads : String → String)
    (s : Sample) : Option Sample :=
  match s.rawdata with
  | RawdataArg.group _ => none
  | RawdataArg.single rd =>
    if s.sample_type = some "riboseq" then
      let rd' := { rd with reads_filename := trimPolyAEnds rd.seq_filename }
      some { s with rawdata := RawdataArg.single rd' }
    else if s.sample_type = some "clipseq" then
      let trimmed := trimClipAdaptors rd.seq_filename
      let collapsed := collapseClipReads trimmed
      let rd' := { rd with reads_filename := collapsed,
                           collapsed_seq_filename := some collapsed }
      some { s with rawdata := RawdataArg.single rd' }
    else
      some s

/-! ### `Pipeline.load_rpkms` (Pipeline.py:228-266) -/

/-- One row of an RPKM quantification table: the four key columns the merge
joins on, plus the sample-specific quantity/count columns accumulated so
far. -/
structure RpkmRow where
  gene_id : String
  exons : String
  gene_symbol : String
  gene_desc : String
  quants : List String
deriving DecidableEq

/-- An RPKM table is its list of rows. -/
abbrev RpkmTable : Type := List RpkmRow

/-- The join key of a row. -/
def rowKey (r : RpkmRow) : String × String × String × String :=
  (r.gene_id, r.exons, r.gene_symbol, r.gene_desc)

/-- Model of `pandas.merge(t1, t2)` on `["gene_id", "exons", "gene_symbol", "gene_desc"]`:
the default inner join — one output row per pair of rows agreeing on all
four key columns, carrying both rows' remaining columns. -/
def mergeTables (t1 t2 : RpkmTable) : RpkmTable :=
  t1.flatMap (fun r1 =>
    (t2.filter (fun r2 => rowKey r2 == rowKey r1)).map
      (fun r2 => { r1 with quants := r1.quants ++ r2.quants }))

/-- Whether a table has at least one row with the given key. -/
def containsKey (t : RpkmTable) (k : String × String × String × String) : Bool :=
  t.any (fun r => rowKey r == k)

/-- The per-table-name body of `Pipeline.load_rpkms`.  Each sample is its
mapping from table names to loaded tables (`rpkm_tables`; `none` models a
missing table).  If sample #1 lacks the table the name is skipped
(`none` result); a single-sample run passes sample #1's table through;
otherwise the remaining samples' tables are pairwise inner-joined in order
(a missing table in a later sample makes `pandas.merge` raise, modelled as
`none`). -/
def load_rpkm_table (samples : List (String → Option RpkmTable)) (name : String) :
    Option RpkmTable :=
  match samples with
  | [] => none
  | s0 :: rest =>
    match s0 name with
    | none => none
    | some t0 =>
      if rest.isEmpty then some t0
      else
        rest.foldl
          (fun acc s =>
            match acc, s name with
            | some t, some t2 => some (mergeTables t t2)
            | _, _ => none)
          (some t0)

/-! ## Theorems -/

/-- A query name is in the excluded-id list iff some record of that query
maps to the excluded reference. -/
theorem mem_riboReadIds_iff (reads : List AlignedRead) (c x : String) :
    x ∈ riboReadIds reads c ↔ ∃ q ∈ reads, q.ref = c ∧ q.qname = x := by
  simp only [riboReadIds, List.mem_map, List.mem_filter, beq_iff_eq]
  constructor
  · rintro ⟨q, ⟨hq, href⟩, hname⟩
    exact ⟨q, hq, href, hname⟩
  · rintro ⟨q, hq, href, hname⟩
    exact ⟨q, ⟨hq, href⟩, hname⟩

/-- The pass-2 retention test, rephrased: a record survives iff no record
of the same query maps to the excluded reference. -/
theorem ribosubReads_eq_filter (reads : List AlignedRead) (c : String) :
    ribosubReads reads c
      = reads.filter (fun r => decide (∀ q ∈ reads, q.qname = r.qname → q.ref ≠ c)) := by
  unfold ribosubReads
  refine List.filter_congr (fun r _ => ?_)
  cases hc : (riboReadIds reads c).contains r.qname with
  | true =>
    obtain ⟨q, hq, href, hname⟩ :=
      (mem_riboReadIds_iff reads c r.qname).mp (List.elem_iff.mp hc)
    simp only [Bool.not_true]
    symm
    rw [decide_eq_false_iff_not]
    intro h
    exact h q hq hname href
  | false =>
    have hnot : r.qname ∉ riboReadIds reads c := fun hm => by
      have h2 : (riboReadIds reads c).contains r.qname = true := List.elem_iff.mpr hm
      rw [h2] at hc
      exact Bool.noConfusion hc
    rw [mem_riboReadIds_iff] at hnot
    simp only [Bool.not_false]
    symm
    rw [decide_eq_true_eq]
    intro q hq hname href
    exact hnot ⟨q, hq, href, hname⟩

/-- Q1 maps both to the excluded reference and elsewhere. -/
def exampleQ1Ribo : AlignedRead := ⟨"Q1", "chrRibo", 10, [("NH", 2)]⟩

/-- Q1's second alignment, away from the excluded reference. -/
def exampleQ1Elsewhere : AlignedRead := ⟨"Q1", "chr1", 20, [("NH", 2)]⟩

/-- Q2 maps elsewhere only. -/
def exampleQ2Read : AlignedRead := ⟨"Q2", "chr2", 30, [("NH", 1)]⟩

/-- The container of the reference-subtraction example. -/
def exampleRiboReads : List AlignedRead :=
  [exampleQ1Ribo, exampleQ1Elsewhere, exampleQ2Read]

/-- C1: reference subtraction is all-or-nothing per query: the output of the
subtraction pass consists of exactly those input records whose query name
has no alignment to the excluded reference anywhere in the file (in input
order, so every record of an untouched query is kept and every record of a
touched query is dropped); in particular, with Q1 aligning to the excluded
reference and elsewhere and Q2 aligning elsewhere only, the output has zero
Q1 records and all Q2 records. -/
theorem ribosub_all_or_nothing (reads : List AlignedRead) (chrRibo : String) :
    (∀ r, r ∈ ribosubReads reads chrRibo ↔
        r ∈ reads ∧ ∀ q ∈ reads, q.qname = r.qname → q.ref ≠ chrRibo)
    ∧ ribosubReads reads chrRibo
        = reads.filter (fun r => decide (∀ q ∈ reads, q.qname = r.qname → q.ref ≠ chrRibo))
    ∧ ribosubReads exampleRiboReads "chrRibo" = [exampleQ2Read] := by
  refine ⟨?_, ribosubReads_eq_filter reads chrRibo, by decide⟩
  intro r
  rw [ribosubReads_eq_filter reads chrRibo, List.mem_filter, decide_eq_true_eq]

/-- The mapping-multiplicity field of a record: the value of its NH tag. -/
def multiplicity (r : AlignedRead) : Option Int := r.tags.lookup "NH"

/-- On a tag list carrying at most one NH value, the source's membership
test `("NH", 1) in read.tags` coincides with "the NH field equals 1". -/
theorem lookup_NH_eq_one_iff (tags : List (String × Int))
    (huniq : ∀ v w : Int, ("NH", v) ∈ tags → ("NH", w) ∈ tags → v = w) :
    tags.lookup "NH" = some 1 ↔ (("NH" : String), (1 : Int)) ∈ tags := by
  induction tags with
  | nil => simp [List.lookup]
  | cons t ts ih =>
    obtain ⟨k, v⟩ := t
    by_cases hk : k = "NH"
    · subst hk
      simp only [List.lookup, beq_self_eq_true, if_pos, List.mem_cons]
      constructor
      · intro hv
        left
        rw [Option.some_inj] at hv
        rw [hv]
      · rintro (h | h)
        · rw [Option.some_inj]
          exact congrArg Prod.snd h.symm
        · rw [Option.some_inj]
          exact huniq v 1 (List.mem_cons_self _ _) (List.mem_cons_of_mem _ h)
    · have hbeq : (("NH" : String) == k) = false := by
        rw [beq_eq_false_iff_ne]
        exact fun he => hk he.symm
      simp only [List.lookup, hbeq, List.mem_cons]
      rw [ih (fun v' w' hv' hw' =>
        huniq v' w' (List.mem_cons_of_mem _ hv') (List.mem_cons_of_mem _ hw'))]
      constructor
      · intro h; right; exact h
      · rintro (h | h)
        · exact absurd (congrArg Prod.fst h.symm) hk
        · exact h

/-- A record with multiplicity 1 (kept). -/
def exampleMult1a : AlignedRead := ⟨"r1", "chr1", 1, [("NH", 1)]⟩
/-- A second record with multiplicity 1 (kept). -/
def exampleMult1b : AlignedRead := ⟨"r2", "chr1", 2, [("NH", 1)]⟩
/-- A record with multiplicity 2 (dropped). -/
def exampleMult2 : AlignedRead := ⟨"r3", "chr2", 3, [("NH", 2)]⟩
/-- A record with multiplicity 3 (dropped). -/
def exampleMult3 : AlignedRead := ⟨"r4", "chr2", 4, [("NH", 3)]⟩
/-- A third record with multiplicity 1 (kept). -/
def exampleMult1c : AlignedRead := ⟨"r5", "chr3", 5, [("NH", 1)]⟩
/-- A container with multiplicities {1, 1, 2, 3, 1}. -/
def exampleMultReads : List AlignedRead :=
  [exampleMult1a, exampleMult1b, exampleMult2, exampleMult3, exampleMult1c]

/-- C2: unique-subset extraction retains exactly the records whose
mapping-multiplicity (NH) field equals 1, in the original record order
(the output is literally the order-preserving filter of the input; on
multiplicities {1,1,2,3,1} exactly the three multiplicity-1 records
survive, in order); the pass warns precisely when zero records are
retained, and is skipped entirely when the output path already exists. -/
theorem unique_subset_spec (fs : FS (List AlignedRead)) (bamPath dir : String)
    (reads : List AlignedRead) :
    (fs bamPath = some reads → fs (uniqueBamPath dir bamPath) = none →
       get_unique_reads fs bamPath dir
         = Except.ok ⟨fsWrite fs (uniqueBamPath dir bamPath) (reads.filter isUniqueRead),
                      uniqueBamPath dir bamPath, true, (reads.filter isUniqueRead).isEmpty⟩)
    ∧ (∀ out, fs bamPath = some reads → fs (uniqueBamPath dir bamPath) = some out →
       get_unique_reads fs bamPath dir
         = Except.ok ⟨fs, uniqueBamPath dir bamPath, false, false⟩)
    ∧ ((∀ r ∈ reads, ∀ v w : Int, ("NH", v) ∈ r.tags → ("NH", w) ∈ r.tags → v = w) →
       reads.filter isUniqueRead = reads.filter (fun r => multiplicity r == some 1))
    ∧ exampleMultReads.filter isUniqueRead = [exampleMult1a, exampleMult1b, exampleMult1c] := by
  refine ⟨?_, ?_, ?_, by decide⟩
  · intro h1 h2
    simp [get_unique_reads, h1, h2]
  · intro out h1 h2
    simp [get_unique_reads, h1, h2]
  · intro huniq
    refine List.filter_congr (fun r hr => ?_)
    have h := lookup_NH_eq_one_iff r.tags (huniq r hr)
    unfold isUniqueRead multiplicity
    cases hd : decide ((("NH" : String), (1 : Int)) ∈ r.tags) with
    | true =>
      symm
      rw [beq_iff_eq]
      exact h.mpr (of_decide_eq_true hd)
    | false =>
      symm
      rw [beq_eq_false_iff_ne]
      intro hl
      exact (of_decide_eq_false hd) (h.mp hl)

/-- The witness container for C2: one record with multiplicity 1 present. -/
theorem unique_subset_spec_witness :
    ((fun p => if p = "mapping/s.bam" then some exampleMultReads else none) "mapping/s.bam"
        = some exampleMultReads)
    ∧ ((fun p => if p = "mapping/s.bam" then some exampleMultReads else none)
        (uniqueBamPath "proc" "mapping/s.bam") = none)
    ∧ get_unique_reads
        (fun p => if p = "mapping/s.bam" then some exampleMultReads else none)
        "mapping/s.bam" "proc"
        = Except.ok ⟨fsWrite
            (fun p => if p = "mapping/s.bam" then some exampleMultReads else none)
            (uniqueBamPath "proc" "mapping/s.bam") (exampleMultReads.filter isUniqueRead),
            uniqueBamPath "proc" "mapping/s.bam", true,
            (exampleMultReads.filter isUniqueRead).isEmpty⟩ :=
  ⟨by decide, by decide,
    (unique_subset_spec
      (fun p => if p = "mapping/s.bam" then some exampleMultReads else none)
      "mapping/s.bam" "proc" exampleMultReads).1 (by decide) (by decide)⟩

/-- C10: the reference-subtraction skip path still opens the input: when the
input BAM is absent the call fails even though the output already exists,
and when both input and output exist the call returns the output path
unchanged with no recomputation. -/
theorem ribosub_opens_input_first (fs : FS (List AlignedRead))
    (bamPath dir chrRibo : String) :
    (∀ out, fs bamPath = none → fs (ribosubBamPath dir bamPath) = some out →
       ∃ e, get_ribosub_bam_reads fs bamPath dir chrRibo = Except.error e)
    ∧ (∀ reads out, fs bamPath = some reads →
       fs (ribosubBamPath dir bamPath) = some out →
       get_ribosub_bam_reads fs bamPath dir chrRibo
         = Except.ok ⟨fs, ribosubBamPath dir bamPath, false, false⟩) := by
  constructor
  · intro out h1 _
    exact ⟨"could not open BAM file", by simp [get_ribosub_bam_reads, h1]⟩
  · intro reads out h1 h2
    simp [get_ribosub_bam_reads, h1, h2]

/-- A file system containing the ribosub output but not the input BAM. -/
def exampleFsOutOnly : FS (List AlignedRead) :=
  fun p => if p = "proc/s.ribosub.bam" then some [] else none

/-- The witness for C10: output present, input absent, the call errors. -/
theorem ribosub_opens_input_first_witness :
    exampleFsOutOnly "mapping/s.bam" = none
    ∧ exampleFsOutOnly (ribosubBamPath "proc" "mapping/s.bam") = some []
    ∧ ∃ e, get_ribosub_bam_reads exampleFsOutOnly "mapping/s.bam" "proc" "chrRibo"
        = Except.error e :=
  ⟨by decide, by decide,
    (ribosub_opens_input_first exampleFsOutOnly "mapping/s.bam" "proc" "chrRibo").1
      [] (by decide) (by decide)⟩

/-- A path is never equal to itself with `.bai` appended. -/
theorem append_bai_ne (s : String) : s ++ ".bai" ≠ s := by
  intro h
  have hd : (s ++ ".bai").data = s.data := congrArg String.data h
  rw [String.data_append] at hd
  have hl := congrArg List.length hd
  rw [List.length_append] at hl
  have h4 : (".bai" : String).data.length = 4 := by decide
  rw [h4] at hl
  omega

/-- C4: skip-if-exists idempotence for every file-producing stage
(duplicate removal, adaptor trimming, unique subset, reference
subtraction, sort): starting from an absent target, running the stage
twice with identical inputs and output path executes the underlying
expensive operation exactly once — the first run executes it, the second
run observes the existing target, performs no work (the file system is
unchanged) and returns the same output path. -/
theorem skip_if_exists_idempotence :
    (∀ (op : List AlignedRead → List AlignedRead) (fs : FS (List AlignedRead))
       (bam dir : String) (reads : List AlignedRead),
       fs bam = some reads → fs (rmdupsBamPath dir bam) = none →
       (rmdups_bam op fs bam dir).ran = true
       ∧ (rmdups_bam op (rmdups_bam op fs bam dir).fs bam dir).ran = false
       ∧ (rmdups_bam op (rmdups_bam op fs bam dir).fs bam dir).path
           = (rmdups_bam op fs bam dir).path
       ∧ (rmdups_bam op (rmdups_bam op fs bam dir).fs bam dir).fs
           = (rmdups_bam op fs bam dir).fs)
    ∧ (∀ (ext : String → String) (cut : String → String → String) (fs : FS String)
       (fq ad dir fqc adc : String),
       fs fq = some fqc → fs ad = some adc →
       fs (trimmedFastqPath ext dir fq) = none →
       ∃ s1 s2, trim_clip_adaptors ext cut fs fq ad dir = Except.ok s1
         ∧ trim_clip_adaptors ext cut s1.fs fq ad dir = Except.ok s2
         ∧ s1.ran = true ∧ s2.ran = false ∧ s2.path = s1.path ∧ s2.fs = s1.fs)
    ∧ (∀ (fs : FS (List AlignedRead)) (bam dir : String) (reads : List AlignedRead),
       fs bam = some reads → fs (uniqueBamPath dir bam) = none →
       ∃ s1 s2, get_unique_reads fs bam dir = Except.ok s1
         ∧ get_unique_reads s1.fs bam dir = Except.ok s2
         ∧ s1.ran = true ∧ s2.ran = false ∧ s2.path = s1.path ∧ s2.fs = s1.fs)
    ∧ (∀ (fs : FS (List AlignedRead)) (bam dir c : String) (reads : List AlignedRead),
       fs bam = some reads → fs (ribosubBamPath dir bam) = none →
       ∃ s1 s2, get_ribosub_bam_reads fs bam dir c = Except.ok s1
         ∧ get_ribosub_bam_reads s1.fs bam dir c = Except.ok s2
         ∧ s1.ran = true ∧ s2.ran = false ∧ s2.path = s1.path ∧ s2.fs = s1.fs)
    ∧ (∀ (op : List AlignedRead → List AlignedRead) (fs : FS (List AlignedRead))
       (bam : String) (reads : List AlignedRead),
       fs bam = some reads → fs (sortedBamPath bam) = none →
       fs (sortedBamPath bam ++ ".bai") = none →
       (sort_and_index_bam op fs bam).2.2.1 = true
       ∧ (sort_and_index_bam op (sort_and_index_bam op fs bam).1 bam).2.2.1 = false
       ∧ (sort_and_index_bam op (sort_and_index_bam op fs bam).1 bam).2.2.2 = false
       ∧ (sort_and_index_bam op (sort_and_index_bam op fs bam).1 bam).2.1
           = (sort_and_index_bam op fs bam).2.1
       ∧ (sort_and_index_bam op (sort_and_index_bam op fs bam).1 bam).1
           = (sort_and_index_bam op fs bam).1) := by
  refine ⟨?_, ?_, ?_, ?_, ?_⟩
  · intro op fs bam dir reads h1 h2
    simp [rmdups_bam, h1, h2, fsWrite]
  · intro ext cut fs fq ad dir fqc adc h1 h2 h3
    have hne : fq ≠ trimmedFastqPath ext dir fq := fun he => by
      rw [he, h3] at h1; exact Option.noConfusion h1
    refine ⟨⟨fsWrite fs (trimmedFastqPath ext dir fq) (cut adc fqc),
             trimmedFastqPath ext dir fq, true, false⟩,
            ⟨fsWrite fs (trimmedFastqPath ext dir fq) (cut adc fqc),
             trimmedFastqPath ext dir fq, false, false⟩, ?_, ?_, rfl, rfl, rfl, rfl⟩
    · simp [trim_clip_adaptors, h1, h2, h3]
    · simp [trim_clip_adaptors, fsWrite]
  · intro fs bam dir reads h1 h2
    have hne : bam ≠ uniqueBamPath dir bam := fun he => by
      rw [he, h2] at h1; exact Option.noConfusion h1
    refine ⟨⟨fsWrite fs (uniqueBamPath dir bam) (reads.filter isUniqueRead),
             uniqueBamPath dir bam, true, (reads.filter isUniqueRead).isEmpty⟩,
            ⟨fsWrite fs (uniqueBamPath dir bam) (reads.filter isUniqueRead),
             uniqueBamPath dir bam, false, false⟩, ?_, ?_, rfl, rfl, rfl, rfl⟩
    · simp [get_unique_reads, h1, h2]
    · simp [get_unique_reads, fsWrite, hne, h1]
  · intro fs bam dir c reads h1 h2
    have hne : bam ≠ ribosubBamPath dir bam := fun he => by
      rw [he, h2] at h1; exact Option.noConfusion h1
    refine ⟨⟨fsWrite fs (ribosubBamPath dir bam) (ribosubReads reads c),
             ribosubBamPath dir bam, true, (riboReadIds reads c).isEmpty⟩,
            ⟨fsWrite fs (ribosubBamPath dir bam) (ribosubReads reads c),
             ribosubBamPath dir bam, false, false⟩, ?_, ?_, rfl, rfl, rfl, rfl⟩
    · simp [get_ribosub_bam_reads, h1, h2]
    · simp [get_ribosub_bam_reads, fsWrite, hne, h1]
  · intro op fs bam reads h1 h2 h3
    have hbai := append_bai_ne (sortedBamPath bam)
    have hbai' : sortedBamPath bam ≠ sortedBamPath bam ++ ".bai" := fun he => hbai he.symm
    have hne : bam ≠ sortedBamPath bam := fun he => by
      rw [he, h2] at h1; exact Option.noConfusion h1
    have hne2 : bam ≠ sortedBamPath bam ++ ".bai" := fun he => by
      rw [he, h3] at h1; exact Option.noConfusion h1
    simp [sort_and_index_bam, index_bam, h1, h2, h3, fsWrite, hbai, hbai', hne, hne2]

/-- A file system holding a single mapped BAM. -/
def exampleFsBam : FS (List AlignedRead) :=
  fun p => if p = "mapping/s.bam" then some exampleMultReads else none

/-- A file system holding a raw fastq file and an adaptors file. -/
def exampleFsFastq : FS String :=
  fun p => if p = "raw/s.fastq" then some "ACGT"
           else if p = "conf/adaptors.txt" then some "-a AD" else none

/-- The witness for C4: each of the five stages applied twice on a concrete
file system with the target initially absent runs its operation on the
first call only. -/
theorem skip_if_exists_idempotence_witness :
    (exampleFsBam "mapping/s.bam" = some exampleMultReads
      ∧ exampleFsBam (rmdupsBamPath "out" "mapping/s.bam") = none
      ∧ (rmdups_bam id exampleFsBam "mapping/s.bam" "out").ran = true
      ∧ (rmdups_bam id (rmdups_bam id exampleFsBam "mapping/s.bam" "out").fs
          "mapping/s.bam" "out").ran = false)
    ∧ (exampleFsFastq "raw/s.fastq" = some "ACGT"
      ∧ exampleFsFastq "conf/adaptors.txt" = some "-a AD"
      ∧ exampleFsFastq (trimmedFastqPath id "raw" "raw/s.fastq") = none
      ∧ ∃ s1 s2, trim_clip_adaptors id (fun _ c => c) exampleFsFastq
            "raw/s.fastq" "conf/adaptors.txt" "raw" = Except.ok s1
          ∧ trim_clip_adaptors id (fun _ c => c) s1.fs
            "raw/s.fastq" "conf/adaptors.txt" "raw" = Except.ok s2
          ∧ s1.ran = true ∧ s2.ran = false ∧ s2.path = s1.path ∧ s2.fs = s1.fs)
    ∧ (exampleFsBam (uniqueBamPath "proc" "mapping/s.bam") = none
      ∧ ∃ s1 s2, get_unique_reads exampleFsBam "mapping/s.bam" "proc" = Except.ok s1
          ∧ get_unique_reads s1.fs "mapping/s.bam" "proc" = Except.ok s2
          ∧ s1.ran = true ∧ s2.ran = false ∧ s2.path = s1.path ∧ s2.fs = s1.fs)
    ∧ (exampleFsBam (ribosubBamPath "proc" "mapping/s.bam") = none
      ∧ ∃ s1 s2, get_ribosub_bam_reads exampleFsBam "mapping/s.bam" "proc" "chrRibo"
            = Except.ok s1
          ∧ get_ribosub_bam_reads s1.fs "mapping/s.bam" "proc" "chrRibo" = Except.ok s2
          ∧ s1.ran = true ∧ s2.ran = false ∧ s2.path = s1.path ∧ s2.fs = s1.fs)
    ∧ (exampleFsBam (sortedBamPath "mapping/s.bam") = none
      ∧ exampleFsBam (sortedBamPath "mapping/s.bam" ++ ".bai") = none
      ∧ (sort_and_index_bam id exampleFsBam "mapping/s.bam").2.2.1 = true
      ∧ (sort_and_index_bam id (sort_and_index_bam id exampleFsBam "mapping/s.bam").1
          "mapping/s.bam").2.2.1 = false
      ∧ (sort_and_index_bam id (sort_and_index_bam id exampleFsBam "mapping/s.bam").1
          "mapping/s.bam").2.2.2 = false) :=
  ⟨⟨by decide, by decide,
    (skip_if_exists_idempotence.1 id exampleFsBam "mapping/s.bam" "out"
      exampleMultReads (by decide) (by decide)).1,
    (skip_if_exists_idempotence.1 id exampleFsBam "mapping/s.bam" "out"
      exampleMultReads (by decide) (by decide)).2.1⟩,
   ⟨by decide, by decide, by decide,
    skip_if_exists_idempotence.2.1 id (fun _ c => c) exampleFsFastq
      "raw/s.fastq" "conf/adaptors.txt" "raw" "ACGT" "-a AD"
      (by decide) (by decide) (by decide)⟩,
   ⟨by decide,
    skip_if_exists_idempotence.2.2.1 exampleFsBam "mapping/s.bam" "proc"
      exampleMultReads (by decide) (by decide)⟩,
   ⟨by decide,
    skip_if_exists_idempotence.2.2.2.1 exampleFsBam "mapping/s.bam" "proc" "chrRibo"
      exampleMultReads (by decide) (by decide)⟩,
   ⟨by decide, by decide,
    (skip_if_exists_idempotence.2.2.2.2 id exampleFsBam "mapping/s.bam"
      exampleMultReads (by decide) (by decide) (by decide)).1,
    (skip_if_exists_idempotence.2.2.2.2 id exampleFsBam "mapping/s.bam"
      exampleMultReads (by decide) (by decide) (by decide)).2.1,
    (skip_if_exists_idempotence.2.2.2.2 id exampleFsBam "mapping/s.bam"
      exampleMultReads (by decide) (by decide) (by decide)).2.2.1⟩⟩

/-- A scheduler state reporting the job present for exactly the first 2
polls and omitting it thereafter. -/
def schedTwoPolls : Nat → Bool := fun n => decide (n < 2)

/-- C5 counterexample: with the job present for exactly 2 polls,
`waitUntilDone` performs 3 polls before returning (the third poll is the
one that observes the absence), not 2. -/
theorem wait_all_two_polls_counterexample :
    waitUntilDone schedTwoPolls 10 = some 3
    ∧ waitUntilDone schedTwoPolls 10 ≠ some 2 := by decide

/-- Polling a job that stays present for exactly `k` polls, starting from
poll index `start ≤ k`, exits after poll `k` (the `(k+1)`-st overall),
given enough fuel. -/
theorem waitUntilDoneAux_count (k : Nat) :
    ∀ fuel start, start ≤ k → k - start < fuel →
      waitUntilDoneAux (fun n => decide (n < k)) fuel start = some (k + 1) := by
  intro fuel
  induction fuel with
  | zero => intro start _ h; omega
  | succ fuel ih =>
    intro start hle hfuel
    unfold waitUntilDoneAux
    by_cases hs : start < k
    · rw [decide_eq_true hs]
      exact ih (start + 1) hs (by omega)
    · have : start = k := by omega
      subst this
      rw [decide_eq_false hs]
      simp

/-- C5 (amended): with the scheduler reporting the handle present for
exactly `k` polls and omitting it thereafter, the wait returns normally
(no exception path exists) after exactly `k + 1` polls — the `k` polls
that observe the handle plus the final poll that observes its absence;
for `k = 2` that is 3 polls, not 2. -/
theorem wait_all_poll_count (k fuel : Nat) (h : k < fuel) :
    waitUntilDone (fun n => decide (n < k)) fuel = some (k + 1) :=
  waitUntilDoneAux_count k fuel 0 (Nat.zero_le k) (by omega)

/-- The witness for C5's amended claim, at `k = 2`. -/
theorem wait_all_poll_count_witness :
    2 < 10 ∧ waitUntilDone (fun n => decide (n < 2)) 10 = some 3 :=
  ⟨by decide, wait_all_poll_count 2 10 (by decide)⟩

/-- C6: no default timeout: against a scheduler state in which the handle
never stops appearing, the polling loop never exits — for every fuel bound
the loop is still running (no timeout, retry limit, or other exit). -/
theorem wait_all_no_timeout (present : Nat → Bool) (h : ∀ n, present n = true) :
    ∀ fuel, waitUntilDone present fuel = none := by
  have haux : ∀ fuel start, waitUntilDoneAux present fuel start = none := by
    intro fuel
    induction fuel with
    | zero => intro start; rfl
    | succ fuel ih =>
      intro start
      unfold waitUntilDoneAux
      rw [h start]
      exact ih (start + 1)
  intro fuel
  exact haux fuel 0

/-- The witness for C6: the always-present scheduler state. -/
theorem wait_all_no_timeout_witness :
    (∀ n : Nat, (fun _ => true) n = true)
    ∧ waitUntilDone (fun _ => true) 7 = none :=
  ⟨fun _ => rfl, wait_all_no_timeout (fun _ => true) (fun _ => rfl) 7⟩

/-- C7: asynchronous submission parses the handle or fails fatally: when
the acknowledgment has the recognized format (starts with `"Your job "`
and carries a numeric third token) the parsed numeric job id is returned;
when the acknowledgment does not start with `"Your job "` an error is
raised (no `none`-like fallback on this path); and even a recognized
prefix with an unparseable id raises rather than returning. -/
theorem launch_job_ack_parse (ack : String) :
    (∀ w jobID, strStartsWith ack "Your job " = true →
       (strSplit ack " ").get? 2 = some w → pyInt? w = some jobID →
       launchJobParseAck ack = Except.ok jobID)
    ∧ (strStartsWith ack "Your job " = false →
       ∃ e, launchJobParseAck ack = Except.error e)
    ∧ (∀ w, strStartsWith ack "Your job " = true →
       (strSplit ack " ").get? 2 = some w → pyInt? w = none →
       ∃ e, launchJobParseAck ack = Except.error e) := by
  refine ⟨?_, ?_, ?_⟩
  · intro w jobID h1 h2 h3
    simp only [List.get?_eq_getElem?] at h2
    simp [launchJobParseAck, h1, h2, h3]
  · intro h1
    exact ⟨"Failed to launch job: " ++ ack, by simp [launchJobParseAck, h1]⟩
  · intro w h1 h2 h3
    refine ⟨"ValueError: invalid literal for int()", ?_⟩
    simp only [List.get?_eq_getElem?] at h2
    simp [launchJobParseAck, h1, h2, h3]

/-- The witness for C7: a well-formed qsub acknowledgment yields job id
91; a malformed one errors. -/
theorem launch_job_ack_parse_witness :
    (strStartsWith "Your job 91 (\"j\") has been submitted" "Your job " = true
      ∧ (strSplit "Your job 91 (\"j\") has been submitted" " ").get? 2 = some "91"
      ∧ pyInt? "91" = some 91
      ∧ launchJobParseAck "Your job 91 (\"j\") has been submitted" = Except.ok 91)
    ∧ (strStartsWith "qsub: unknown queue" "Your job " = false
      ∧ ∃ e, launchJobParseAck "qsub: unknown queue" = Except.error e) :=
  ⟨⟨by decide, by decide, by decide,
    (launch_job_ack_parse "Your job 91 (\"j\") has been submitted").1 "91" 91
      (by decide) (by decide) (by decide)⟩,
   by decide,
   (launch_job_ack_parse "qsub: unknown queue").2.1 (by decide)⟩

/-- The sample with its single rawdata's reads path replaced. -/
def withSingleReads (s : Sample) (rd : SampleRawdata) (newReads : String) : Sample :=
  let rd' := { rd with reads_filename := newReads }
  { s with rawdata := RawdataArg.single rd' }

/-- The sample with its single rawdata's collapsed path recorded and used
as the reads path. -/
def withSingleCollapsed (s : Sample) (rd : SampleRawdata) (collapsed : String) : Sample :=
  let rd' := { rd with reads_filename := collapsed,
                       collapsed_seq_filename := some collapsed }
  { s with rawdata := RawdataArg.single rd' }

/-- The reads path of an unpaired sample. -/
def singleReadsFilename (s : Sample) : Option String :=
  match s.rawdata with
  | RawdataArg.single rd => some rd.reads_filename
  | RawdataArg.group _ => none

/-- C8: preprocess branches on sample type: a sample of neither
ribosome-profiling (`"riboseq"`) nor crosslinking (`"clipseq"`) type is
returned with its reads path unchanged; a riboseq sample's reads path
becomes the poly-A-trimmed output of the original sequence file; a clipseq
sample has adaptors trimmed first, then duplicate sequences collapsed, and
the collapsed path is both recorded and used as the final reads path. -/
theorem preprocess_reads_branches
    (fPolyA fAdapt fCollapse : String → String) (s : Sample) (rd : SampleRawdata)
    (h : s.rawdata = RawdataArg.single rd) :
    (s.sample_type ≠ some "riboseq" → s.sample_type ≠ some "clipseq" →
       preprocess_reads fPolyA fAdapt fCollapse s = some s)
    ∧ (s.sample_type = some "riboseq" →
       preprocess_reads fPolyA fAdapt fCollapse s
         = some (withSingleReads s rd (fPolyA rd.seq_filename)))
    ∧ (s.sample_type = some "clipseq" →
       preprocess_reads fPolyA fAdapt fCollapse s
         = some (withSingleCollapsed s rd (fCollapse (fAdapt rd.seq_filename)))) := by
  refine ⟨?_, ?_, ?_⟩
  · intro h1 h2
    simp [preprocess_reads, h, h1, h2]
  · intro h1
    simp [preprocess_reads, withSingleReads, h, h1]
  · intro h1
    have h2 : s.sample_type ≠ some "riboseq" := by rw [h1]; decide
    simp [preprocess_reads, withSingleCollapsed, h, h1, h2]

/-- A crosslinking rawdata fixture. -/
def exampleClipRawdata : SampleRawdata :=
  SampleRawdata.make "s1" "indir/s1.fastq" (some "clipseq")

/-- A crosslinking sample fixture built on `exampleClipRawdata`. -/
def exampleClipSample : Sample :=
  ⟨"s1", RawdataArg.single exampleClipRawdata, false, some "clipseq"⟩

/-- The witness for C8: a concrete clipseq sample is trimmed then
collapsed, and the collapsed path becomes the final reads path. -/
theorem preprocess_reads_branches_witness :
    exampleClipSample.rawdata = RawdataArg.single exampleClipRawdata
    ∧ exampleClipSample.sample_type = some "clipseq"
    ∧ preprocess_reads (fun p => p ++ ".polyA") (fun p => p ++ ".trim")
        (fun p => p ++ ".collapsed") exampleClipSample
      = some (withSingleCollapsed exampleClipSample exampleClipRawdata
          "indir/s1.fastq.trim.collapsed")
    ∧ (preprocess_reads (fun p => p ++ ".polyA") (fun p => p ++ ".trim")
        (fun p => p ++ ".collapsed") exampleClipSample).bind singleReadsFilename
      = some "indir/s1.fastq.trim.collapsed" :=
  ⟨rfl, rfl, by
    have h := (preprocess_reads_branches (fun p => p ++ ".polyA") (fun p => p ++ ".trim")
      (fun p => p ++ ".collapsed") exampleClipSample exampleClipRawdata rfl).2.2 rfl
    rw [h]
    decide,
   by decide⟩

/-- C9: Sample construction invariant: whenever `Sample.__init__` succeeds,
the `paired` flag is true iff the rawdata argument was a list; a
sample built from a single rawdata has `paired = false` and inherits that
rawdata's sample type; a sample built from a (necessarily nonempty) group
takes the first member's sample type with `paired = true`. -/
theorem sample_construction_invariant (label : String) (rd : RawdataArg) (s : Sample)
    (h : Sample.make label rd = some s) :
    (s.paired = true ↔ ∃ rs, rd = RawdataArg.group rs)
    ∧ (∀ r, rd = RawdataArg.single r →
        s.paired = false ∧ s.sample_type = r.sample_type)
    ∧ (∀ r0 rest, rd = RawdataArg.group (r0 :: rest) →
        s.paired = true ∧ s.sample_type = r0.sample_type)
    ∧ (∀ r, rd = RawdataArg.single r →
        load_single_end_samples [r] = [⟨r.label, RawdataArg.single r, false, r.sample_type⟩]) := by
  refine ⟨?_, ?_, ?_, ?_⟩
  · constructor
    · intro hp
      cases rd with
      | group rs => exact ⟨rs, rfl⟩
      | single r =>
        rw [Sample.make] at h
        rw [Option.some_inj] at h
        rw [← h] at hp
        simp at hp
    · rintro ⟨rs, hrs⟩
      subst hrs
      cases rs with
      | nil => exact Option.noConfusion h
      | cons r0 rest =>
        rw [Sample.make] at h
        rw [Option.some_inj] at h
        rw [← h]
  · intro r hr
    subst hr
    rw [Sample.make] at h
    rw [Option.some_inj] at h
    rw [← h]
    exact ⟨rfl, rfl⟩
  · intro r0 rest hr
    subst hr
    rw [Sample.make] at h
    rw [Option.some_inj] at h
    rw [← h]
    exact ⟨rfl, rfl⟩
  · intro r _
    rfl

/-- The witness for C9: one raw sample with no group entry yields a Sample
with `paired = false` and the rawdata's type. -/
theorem sample_construction_invariant_witness :
    Sample.make "s1" (RawdataArg.single exampleClipRawdata)
      = some ⟨"s1", RawdataArg.single exampleClipRawdata, false, some "clipseq"⟩
    ∧ (⟨"s1", RawdataArg.single exampleClipRawdata, false, some "clipseq"⟩ : Sample).paired
        = false
    ∧ (⟨"s1", RawdataArg.single exampleClipRawdata, false, some "clipseq"⟩ : Sample).sample_type
        = exampleClipRawdata.sample_type :=
  ⟨rfl,
    ((sample_construction_invariant "s1" (RawdataArg.single exampleClipRawdata)
        ⟨"s1", RawdataArg.single exampleClipRawdata, false, some "clipseq"⟩ rfl).2.1
      exampleClipRawdata rfl).1,
    ((sample_construction_invariant "s1" (RawdataArg.single exampleClipRawdata)
        ⟨"s1", RawdataArg.single exampleClipRawdata, false, some "clipseq"⟩ rfl).2.1
      exampleClipRawdata rfl).2⟩

/-- A table contains a key iff one of its rows carries it. -/
theorem containsKey_iff (t : RpkmTable) (k : String × String × String × String) :
    containsKey t k = true ↔ ∃ r ∈ t, rowKey r = k := by
  simp only [containsKey, List.any_eq_true, beq_iff_eq]

/-- Appending quantity columns leaves the join key unchanged. -/
theorem rowKey_addQuants (r : RpkmRow) (q : List String) :
    rowKey { r with quants := r.quants ++ q } = rowKey r := rfl

/-- The inner join contains a key iff both operands contain it. -/
theorem containsKey_mergeTables (t1 t2 : RpkmTable) (k : String × String × String × String) :
    containsKey (mergeTables t1 t2) k = true
      ↔ containsKey t1 k = true ∧ containsKey t2 k = true := by
  rw [containsKey_iff, containsKey_iff, containsKey_iff]
  constructor
  · rintro ⟨r, hr, hk⟩
    rw [mergeTables, List.mem_flatMap] at hr
    obtain ⟨r1, hr1, hr'⟩ := hr
    rw [List.mem_map] at hr'
    obtain ⟨r2, hr2, hg⟩ := hr'
    rw [List.mem_filter, beq_iff_eq] at hr2
    have hk1 : rowKey r1 = k := by
      rw [← hk, ← hg, rowKey_addQuants]
    exact ⟨⟨r1, hr1, hk1⟩, ⟨r2, hr2.1, hr2.2.trans hk1⟩⟩
  · rintro ⟨⟨r1, hr1, hk1⟩, ⟨r2, hr2, hk2⟩⟩
    refine ⟨{ r1 with quants := r1.quants ++ r2.quants }, ?_, by rw [rowKey_addQuants]; exact hk1⟩
    rw [mergeTables, List.mem_flatMap]
    refine ⟨r1, hr1, ?_⟩
    rw [List.mem_map]
    refine ⟨r2, ?_, rfl⟩
    rw [List.mem_filter, beq_iff_eq]
    exact ⟨hr2, hk2.trans hk1.symm⟩

/-- The merging fold of `load_rpkms`: when every later sample has the
table, the fold produces a table containing a key iff the accumulator and
every later sample's table contain it. -/
theorem load_rpkm_foldl (name : String) (k : String × String × String × String)
    (rest : List (String → Option RpkmTable)) :
    ∀ t0 : RpkmTable, (∀ s ∈ rest, ∃ t, s name = some t) →
      ∃ tm, rest.foldl
          (fun acc s =>
            match acc, s name with
            | some t, some t2 => some (mergeTables t t2)
            | _, _ => none)
          (some t0) = some tm
        ∧ (containsKey tm k = true ↔
            containsKey t0 k = true
            ∧ ∀ s ∈ rest, ∀ t, s name = some t → containsKey t k = true) := by
  induction rest with
  | nil =>
    intro t0 _
    exact ⟨t0, rfl, by simp⟩
  | cons s rest ih =>
    intro t0 hall
    obtain ⟨t1, ht1⟩ := hall s (List.mem_cons_self _ _)
    obtain ⟨tm, htm, hiff⟩ :=
      ih (mergeTables t0 t1) (fun s' hs' => hall s' (List.mem_cons_of_mem _ hs'))
    refine ⟨tm, ?_, ?_⟩
    · rw [List.foldl_cons, ht1]
      exact htm
    · rw [hiff, containsKey_mergeTables]
      constructor
      · rintro ⟨⟨h0, h1⟩, hrest⟩
        refine ⟨h0, ?_⟩
        intro s' hs' t ht
        rcases List.mem_cons.mp hs' with he | hmem
        · subst he
          rw [ht1] at ht
          rw [← Option.some_inj.mp ht]
          exact h1
        · exact hrest s' hmem t ht
      · rintro ⟨h0, hall'⟩
        exact ⟨⟨h0, hall' s (List.mem_cons_self _ _) t1 ht1⟩,
               fun s' hs' t ht => hall' s' (List.mem_cons_of_mem _ hs') t ht⟩

/-- C3: the quantification-table merge is a strict inner join: when every
sample has the table, the merged table contains a key (gene id, exon
signature, symbol, description) iff every sample's table contains that key
— a key missing from any one sample is dropped, never zero-filled; a table
name whose table is absent in sample #1 is skipped regardless of the other
samples; and a single-sample run passes its table through unmodified. -/
theorem rpkm_merge_inner_join
    (samples : List (String → Option RpkmTable)) (name : String)
    (k : String × String × String × String)
    (s0 : String → Option RpkmTable) (rest : List (String → Option RpkmTable))
    (t0 : RpkmTable) :
    (samples = s0 :: rest → s0 name = some t0 →
       (∀ s ∈ rest, ∃ t, s name = some t) →
       ∃ tm, load_rpkm_table samples name = some tm
         ∧ (containsKey tm k = true ↔
             ∀ s ∈ samples, ∀ t, s name = some t → containsKey t k = true))
    ∧ (samples = s0 :: rest → s0 name = none → load_rpkm_table samples name = none)
    ∧ (s0 name = some t0 → load_rpkm_table [s0] name = some t0) := by
  refine ⟨?_, ?_, ?_⟩
  · intro hs h0 hall
    subst hs
    obtain ⟨tm, htm, hiff⟩ := load_rpkm_foldl name k rest t0 hall
    cases rest with
    | nil =>
      refine ⟨t0, by simp [load_rpkm_table, h0], ?_⟩
      constructor
      · intro hc s hs t ht
        rw [List.mem_singleton] at hs
        subst hs
        rw [h0] at ht
        rw [← Option.some_inj.mp ht]
        exact hc
      · intro hc
        exact hc s0 (List.mem_singleton.mpr rfl) t0 h0
    | cons s1 rest' =>
      refine ⟨tm, ?_, ?_⟩
      · simp only [load_rpkm_table, h0, List.isEmpty_cons, if_neg]
        exact htm
      · rw [hiff]
        constructor
        · rintro ⟨h0c, hrestc⟩ s hs t ht
          rcases List.mem_cons.mp hs with he | hmem
          · subst he
            rw [h0] at ht
            rw [← Option.some_inj.mp ht]
            exact h0c
          · exact hrestc s hmem t ht
        · intro hc
          exact ⟨hc s0 (List.mem_cons_self _ _) t0 h0,
                 fun s hs t ht => hc s (List.mem_cons_of_mem _ hs) t ht⟩
  · intro hs h0
    subst hs
    simp [load_rpkm_table, h0]
  · intro h0
    simp [load_rpkm_table, h0]

/-- A gene-G1 row carrying one quantity column. -/
def exampleRowG1 (q : String) : RpkmRow := ⟨"G1", "e1", "sym1", "d1", [q]⟩
/-- A gene-G2 row carrying one quantity column. -/
def exampleRowG2 (q : String) : RpkmRow := ⟨"G2", "e2", "sym2", "d2", [q]⟩
/-- Sample 1's tables: G1 and G2 present. -/
def exampleTables1 : String → Option RpkmTable :=
  fun n => if n = "ensGene" then some [exampleRowG1 "1.0", exampleRowG2 "2.0"] else none
/-- Sample 2's tables: G2 omitted. -/
def exampleTables2 : String → Option RpkmTable :=
  fun n => if n = "ensGene" then some [exampleRowG1 "3.0"] else none
/-- Sample 3's tables: G1 and G2 present. -/
def exampleTables3 : String → Option RpkmTable :=
  fun n => if n = "ensGene" then some [exampleRowG1 "5.0", exampleRowG2 "6.0"] else none

/-- The witness for C3: three samples all carry G1; sample 2 omits G2; the
merged table exists, contains G1 with all three quantity columns, and does
not contain G2. -/
theorem rpkm_merge_inner_join_witness :
    (exampleTables1 "ensGene" = some [exampleRowG1 "1.0", exampleRowG2 "2.0"]
      ∧ (∀ s ∈ [exampleTables2, exampleTables3], ∃ t, s "ensGene" = some t)
      ∧ ∃ tm, load_rpkm_table [exampleTables1, exampleTables2, exampleTables3] "ensGene"
            = some tm
          ∧ (containsKey tm ("G1", "e1", "sym1", "d1") = true ↔
              ∀ s ∈ [exampleTables1, exampleTables2, exampleTables3],
                ∀ t, s "ensGene" = some t →
                  containsKey t ("G1", "e1", "sym1", "d1") = true))
    ∧ load_rpkm_table [exampleTables1, exampleTables2, exampleTables3] "ensGene"
        = some [⟨"G1", "e1", "sym1", "d1", ["1.0", "3.0", "5.0"]⟩]
    ∧ containsKey [(⟨"G1", "e1", "sym1", "d1", ["1.0", "3.0", "5.0"]⟩ : RpkmRow)]
        ("G1", "e1", "sym1", "d1") = true
    ∧ containsKey [(⟨"G1", "e1", "sym1", "d1", ["1.0", "3.0", "5.0"]⟩ : RpkmRow)]
        ("G2", "e2", "sym2", "d2") = false :=
  ⟨⟨by decide,
    by
      intro s hs
      rcases List.mem_cons.mp hs with he | hs'
      · subst he; exact ⟨_, rfl⟩
      · rcases List.mem_cons.mp hs' with he | hs''
        · subst he; exact ⟨_, rfl⟩
        · exact absurd hs'' (List.not_mem_nil s),
    (rpkm_merge_inner_join [exampleTables1, exampleTables2, exampleTables3] "ensGene"
        ("G1", "e1", "sym1", "d1") exampleTables1 [exampleTables2, exampleTables3]
        [exampleRowG1 "1.0", exampleRowG2 "2.0"]).1 rfl (by decide)
      (by
        intro s hs
        rcases List.mem_cons.mp hs with he | hs'
        · subst he; exact ⟨_, rfl⟩
        · rcases List.mem_cons.mp hs' with he | hs''
          · subst he; exact ⟨_, rfl⟩
          · exact absurd hs'' (List.not_mem_nil s))⟩,
   by decide, by decide, by decide⟩

end Rnaseqlib
